import Mathlib

/-!
# Verification of the r.random.walk walk engine

Shallow embedding of `src/random_walk.py`: a random walk on a bounded 2D
grid.  The GRASS adapters of the Python module (raster file handling, option parsing) are
out of scope; the walk engine proper — `take_step`, `cell_visited`,
`walker_is_stuck`, `find_new_path`, `avoid_boundary`, `random_walk`,
`starting_position`, `out_of_bounds` — is translated function by function.

Modelling conventions:
* The output raster (`RasterSegment`) is a total map `Pos → Int`; the
  raster is created empty, so unwritten cells read as `0`.
* The global `random` generator of Python is an explicit stream `rng : Nat → Nat`
  together with a running index `k`; each `random.choice` /
  `random.randint` call consumes exactly one draw.  `random.choice(lst)`
  is modelled as selecting index `rng k % lst.length`, which ranges over
  every index of the list; `random.randint(0, n)` as `rng k % (n + 1)`.
* Raised-and-unhandled Python exceptions (`ValueError` from `take_step`,
  `IndexError` from `random.choice` on an empty list, `ValueError` from
  `random.randint` with an empty range) are modelled as `none` / `crashed`
  results; the handled control-flow exception `GetOutOfLoop` becomes the
  `stuck` outcome.
-/

namespace RandomWalk

/-- A grid position `[row, column]`, signed integers as in the source. -/
abbrev Pos := Int × Int

/-- The output raster, modelled as a total map from positions to cell
values; unwritten cells read as `0`. -/
abbrev Grid := Pos → Int

/-- Pointwise raster write, modelling `walk_output[r, c] = v` / `put`. -/
def gridSet (g : Grid) (p : Pos) (v : Int) : Grid :=
  fun q => if q = p then v else g q

/-- The dict `{"position": ..., "direction": ...}` built by `take_step`. -/
structure StepAttempt where
  position : Pos
  direction : Nat
deriving DecidableEq, Repr

/-- The direction-offset ladder inlined in `take_step` (lines 112-135):
0 = N (+1,0), 1 = E (0,+1), 2 = S (-1,0), 3 = W (0,-1),
4 = NE (+1,+1), 5 = SE (-1,+1), 6 = SW (-1,-1), 7 = NW (+1,-1). -/
def movePos (cur : Pos) (d : Nat) : Pos :=
  match d with
  | 0 => (cur.1 + 1, cur.2)
  | 1 => (cur.1, cur.2 + 1)
  | 2 => (cur.1 - 1, cur.2)
  | 3 => (cur.1, cur.2 - 1)
  | 4 => (cur.1 + 1, cur.2 + 1)
  | 5 => (cur.1 - 1, cur.2 + 1)
  | 6 => (cur.1 - 1, cur.2 - 1)
  | _ => (cur.1 + 1, cur.2 - 1)

/-- Model of `take_step(current_position, num_dir, black_list)` (lines 91-139).
Raises `ValueError` (`none`) when `num_dir ∉ {4, 8}`; raises `IndexError`
(`none`) when the candidate list for `random.choice` is empty; the final
`else: raise ValueError` branch for a direction above 7 is the
`direction ≤ 7` guard (a direction drawn from `range(num_dir)` with
`num_dir ∈ {4, 8}` is always at most 7, so that branch is dead in the
source as well).  On success, returns the attempt and the advanced rng
index. -/
def take_step (rng : Nat → Nat) (k : Nat) (current_position : Pos)
    (num_dir : Nat) (black_list : List Nat) : Option (StepAttempt × Nat) :=
  if num_dir = 4 ∨ num_dir = 8 then
    match (List.range num_dir).filter (fun e => !black_list.contains e) with
    | [] => none
    | c :: cs =>
      if (c :: cs).getD (rng k % (c :: cs).length) 0 ≤ 7 then
        some (⟨movePos current_position ((c :: cs).getD (rng k % (c :: cs).length) 0),
          (c :: cs).getD (rng k % (c :: cs).length) 0⟩, k + 1)
      else none
  else none

/-- Model of `cell_visited(rast, position)` (lines 142-151): value strictly above
zero means visited. -/
def cell_visited (rast : Grid) (position : Pos) : Bool :=
  decide (rast position > 0)

/-- Model of `walker_is_stuck(tested_directions, num_directions)` (lines 154-161). -/
def walker_is_stuck (tested_directions : List Nat) (num_directions : Nat) : Bool :=
  decide (tested_directions.length = num_directions)

/-- Outcome of the revisit-resolution loop `find_new_path`:
`found` is a normal return, `stuck` is the raised `GetOutOfLoop`,
`crash` an unhandled exception from `take_step`.  `fuelOut` is an
artifact of the explicit recursion bound and is proved unreachable for
the fuel used by `find_new_path` (see the self-bounding theorem). -/
inductive StepOutcome where
  | found (attempt : StepAttempt) (k : Nat)
  | stuck
  | crash
  | fuelOut
deriving DecidableEq, Repr

/-- The `while visited:` loop body of `find_new_path` (lines 177-187),
with an explicit recursion bound `fuel`.  `tested_directions` grows by the
direction of each failed attempt; the stuck test runs before each retry. -/
def findNewPathAux (rng : Nat → Nat) (walk_output : Grid) (current_pos : Pos)
    (num_directions : Nat) :
    Nat → StepAttempt → List Nat → Nat → StepOutcome
  | 0, _, _, _ => .fuelOut
  | fuel + 1, new_position, tested_directions, k =>
    if cell_visited walk_output new_position.position then
      if walker_is_stuck tested_directions num_directions then
        .stuck
      else
        match take_step rng k current_pos num_directions tested_directions with
        | none => .crash
        | some (np, k1) =>
          findNewPathAux rng walk_output current_pos num_directions fuel np
            (tested_directions ++ [np.direction]) k1
    else
      .found new_position k

/-- Model of `find_new_path(walk_output, current_pos, new_position, num_directions,
step)` (lines 164-187): `tested_directions` starts as the direction of the
first attempt, then the loop above runs.  Fuel `num_directions` is enough:
each retry adds one fresh direction and the loop stops at
`num_directions` tested. -/
def find_new_path (rng : Nat → Nat) (walk_output : Grid) (current_pos : Pos)
    (new_position : StepAttempt) (num_directions : Nat) (k : Nat) : StepOutcome :=
  findNewPathAux rng walk_output current_pos num_directions num_directions
    new_position [new_position.direction] k

/-- Model of `avoid_boundary(position, boundary)` (lines 190-215). -/
def avoid_boundary (position : StepAttempt) (boundary : Int × Int) : List Nat :=
  let brows := boundary.1
  let bcols := boundary.2
  let prow := position.position.1
  let pcol := position.position.2
  let avoid0 := [position.direction]
  let avoid1 := if prow > brows then avoid0 ++ [0, 4, 7] else avoid0
  let avoid2 := if prow < 0 then avoid1 ++ [2, 5, 6] else avoid1
  let avoid3 := if pcol > bcols then avoid2 ++ [1, 4, 5] else avoid2
  if pcol < 0 then avoid3 ++ [3, 6, 7] else avoid3

/-- Model of `out_of_bounds(position, region)` (lines 288-295). -/
def out_of_bounds (position : Pos) (region : Int × Int) : Bool :=
  decide (position.1 > region.1 ∨ position.1 < 0 ∨
    position.2 > region.2 ∨ position.2 < 0)

/-- Model of `starting_position(surface_rows, surface_columns)` (lines 275-285):
two `random.randint(0, n)` draws, each inclusive of both endpoints.
`random.randint(0, n)` raises `ValueError` when `n < 0` (`none`). -/
def starting_position (rng : Nat → Nat) (k : Nat)
    (surface_rows surface_columns : Int) : Option (Pos × Nat) :=
  if surface_rows < 0 ∨ surface_columns < 0 then none
  else
    let start_row : Int := ((rng k) % (surface_rows.toNat + 1) : Nat)
    let start_column : Int := ((rng (k + 1)) % (surface_columns.toNat + 1) : Nat)
    some ((start_row, start_column), k + 2)

/-- Result of the `for step in range(steps + 1)` loop of `random_walk`
(lines 241-265): `completed` when every iteration ran, `gotStuck` when
`GetOutOfLoop` was raised (carrying the grid, current position and the
trace of committed positions at that moment), `crashed` when an unhandled
exception escaped. -/
inductive LoopRes where
  | completed (g : Grid) (cur : Pos) (k : Nat) (trace : List Pos)
  | gotStuck (g : Grid) (cur : Pos) (trace : List Pos)
  | crashed (g : Grid) (cur : Pos) (trace : List Pos)

/-- The loop body of `random_walk` (lines 241-265), one iteration per unit
of the first `Nat` argument.  `trace` records, in order, each position
whose visit counter is incremented (a commit). -/
def walkLoop (rng : Nat → Nat) (num_directions : Nat) (boundary : Int × Int)
    (revisit : Bool) :
    Nat → Grid → Pos → Nat → List Pos → LoopRes
  | 0, g, cur, k, tr => .completed g cur k tr
  | iters + 1, g, cur, k, tr =>
    match take_step rng k cur num_directions [] with
    | none => .crashed g cur tr
    | some (np0, k1) =>
      let afterBoundary :=
        if out_of_bounds np0.position boundary then
          take_step rng k1 cur num_directions (avoid_boundary np0 boundary)
        else some (np0, k1)
      match afterBoundary with
      | none => .crashed g cur tr
      | some (np1, k2) =>
        let resolved :=
          if revisit then StepOutcome.found np1 k2
          else find_new_path rng g cur np1 num_directions k2
        match resolved with
        | .found np2 k3 =>
          let value := g np2.position
          let g1 := gridSet g np2.position (value + 1)
          walkLoop rng num_directions boundary revisit iters g1 np2.position k3
            (tr ++ [np2.position])
        | .stuck => .gotStuck g cur tr
        | .crash => .crashed g cur tr
        | .fuelOut => .crashed g cur tr

/-- The observable outcome of one call to `random_walk`: the final grid,
the start cell, the ordered trace of committed positions (commits only —
the initial seeding write of 2 and the stuck-sentinel write of 3 are not
commits), whether the walker got stuck, whether an unhandled exception
escaped, and the final current position of the walker. -/
structure RWResult where
  grid : Grid
  start : Pos
  trace : List Pos
  stuck : Bool
  errored : Bool
  final : Pos

/-- Model of `random_walk(num_directions, boundary, walk_output, steps, revisit)`
(lines 218-272): pick a random start, seed it with 2, run the loop for
`range(steps + 1)` iterations; on `GetOutOfLoop` write the sentinel 3 at
the current position and return normally. -/
def random_walk (rng : Nat → Nat) (num_directions : Nat) (boundary : Int × Int)
    (walk_output : Grid) (steps : Int) (revisit : Bool) : RWResult :=
  match starting_position rng 0 boundary.1 boundary.2 with
  | none => ⟨walk_output, (0, 0), [], false, true, (0, 0)⟩
  | some (start_pos, k0) =>
    let g1 := gridSet walk_output start_pos 2
    match walkLoop rng num_directions boundary revisit (steps + 1).toNat
        g1 start_pos k0 [] with
    | .completed g cur _ tr => ⟨g, start_pos, tr, false, false, cur⟩
    | .gotStuck g cur tr => ⟨gridSet g cur 3, start_pos, tr, true, false, cur⟩
    | .crashed g cur tr => ⟨g, start_pos, tr, false, true, cur⟩

/-- The all-zero grid the raster adapter hands to the walk. -/
def zeroGrid : Grid := fun _ => 0

/-- The committed-positions trace carried by a loop result. -/
def LoopRes.trace : LoopRes → List Pos
  | .completed _ _ _ tr => tr
  | .gotStuck _ _ tr => tr
  | .crashed _ _ tr => tr

/-!
## Concrete walk scenarios used as failing inputs / counterexamples
-/

/-- Random stream driving a walk that starts at the corner `(0, 0)` of a
2×2 grid (boundary `(1, 1)`), first draws S (index 2 of `[0,1,2,3]`) which
is out of bounds, and on the boundary redraw draws W (index 2 of the
candidate list `[0, 1, 3]`). -/
def rngCorner : Nat → Nat := fun k => if k = 2 then 2 else if k = 3 then 2 else 0

/-- A grid in which only the cell `(1, 0)` has been visited (value 1). -/
def gridVisitedN : Grid := gridSet zeroGrid (1, 0) 1

/-- Random stream for the `find_new_path` scenario: the retry draw at
index 0 selects index 1 of the candidate list `[1, 2, 3]`, i.e. direction
2 (S). -/
def rngRetryS : Nat → Nat := fun k => if k = 0 then 1 else 0

/-- A 3×3 grid (boundary `(2, 2)`) in which the four cardinal neighbours
of the centre `(1, 1)` are already visited. -/
def gridSaturated : Grid := fun p =>
  if p = (2, 1) ∨ p = (1, 2) ∨ p = (0, 1) ∨ p = (1, 0) then 1 else 0

/-- Random stream whose two starting draws place the walker at `(1, 1)`
on a 3×3 grid. -/
def rngCentre : Nat → Nat := fun k => if k = 0 then 1 else if k = 1 then 1 else 0

/-!
## Lemmas and claim theorems
-/

/-- Reading the cell just written returns the written value. -/
theorem gridSet_same (g : Grid) (p : Pos) (v : Int) : gridSet g p v p = v := by
  simp [gridSet]

/-- An element selected by `getD` at an in-range index is in the list. -/
theorem getD_mod_mem (c : Nat) (cs : List Nat) (i d : Nat) :
    (c :: cs).getD (i % (c :: cs).length) d ∈ c :: cs := by
  have hlt : i % (c :: cs).length < (c :: cs).length :=
    Nat.mod_lt _ (by simp)
  rw [List.getD_eq_getElem _ d hlt]
  exact List.getElem_mem hlt

/-- What a successful `take_step` guarantees: the chosen direction is in
range, not black-listed, at most 7, the new position is the offset applied
to the current one, and exactly one random draw was consumed. -/
theorem take_step_spec {rng : Nat → Nat} {k : Nat} {cur : Pos} {nd : Nat}
    {bl : List Nat} {a : StepAttempt} {k1 : Nat}
    (h : take_step rng k cur nd bl = some (a, k1)) :
    a.direction < nd ∧ a.direction ∉ bl ∧
    a.position = movePos cur a.direction ∧ k1 = k + 1 := by
  unfold take_step at h
  split at h
  case isFalse => exact absurd h (by simp)
  case isTrue hnd =>
    revert h
    split
    · intro h; exact absurd h (by simp)
    · next c cs hc =>
      intro h
      have hmem : (c :: cs).getD (rng k % (c :: cs).length) 0 ∈ c :: cs :=
        getD_mod_mem c cs (rng k) 0
      have hmemf : (c :: cs).getD (rng k % (c :: cs).length) 0 ∈
          (List.range nd).filter (fun e => !bl.contains e) := by
        rw [hc]; exact hmem
      have hfil := List.mem_filter.mp hmemf
      have hrange := List.mem_range.mp hfil.1
      have hbl : (c :: cs).getD (rng k % (c :: cs).length) 0 ∉ bl := by
        simpa using hfil.2
      split at h
      · rw [Option.some.injEq, Prod.mk.injEq] at h
        obtain ⟨h1, h2⟩ := h
        subst h2
        cases h1
        exact ⟨hrange, hbl, rfl, rfl⟩
      · exact absurd h (by simp)

/-- The selector `take_step` succeeds whenever some direction below `num_dir` is not
black-listed (the candidate list for `random.choice` is then nonempty). -/
theorem take_step_some (rng : Nat → Nat) (k : Nat) (cur : Pos) (nd : Nat)
    (bl : List Nat) (hnd : nd = 4 ∨ nd = 8)
    (hex : ∃ e, e < nd ∧ e ∉ bl) :
    ∃ a k1, take_step rng k cur nd bl = some (a, k1) := by
  obtain ⟨e, he, hbl⟩ := hex
  have hememf : e ∈ (List.range nd).filter (fun e => !bl.contains e) := by
    refine List.mem_filter.mpr ⟨List.mem_range.mpr he, ?_⟩
    simpa using hbl
  unfold take_step
  rw [if_pos hnd]
  split
  · rename_i hnil
    rw [hnil] at hememf
    exact absurd hememf (by simp)
  · next c cs hc =>
    have hmem : (c :: cs).getD (rng k % (c :: cs).length) 0 ∈ c :: cs :=
      getD_mod_mem c cs (rng k) 0
    have hmemf : (c :: cs).getD (rng k % (c :: cs).length) 0 ∈
        (List.range nd).filter (fun e => !bl.contains e) := by
      rw [hc]; exact hmem
    have hrange := List.mem_range.mp (List.mem_filter.mp hmemf).1
    have h7 : (c :: cs).getD (rng k % (c :: cs).length) 0 ≤ 7 := by
      rcases hnd with h | h <;> omega
    rw [if_pos h7]
    exact ⟨_, _, rfl⟩

/-- Membership in the exclusion list built by `avoid_boundary`, condition
by condition. -/
theorem avoid_boundary_mem_iff (a : StepAttempt) (brows bcols : Int) (d : Nat) :
    d ∈ avoid_boundary a (brows, bcols) ↔
      d = a.direction ∨
      (a.position.1 > brows ∧ (d = 0 ∨ d = 4 ∨ d = 7)) ∨
      (a.position.1 < 0 ∧ (d = 2 ∨ d = 5 ∨ d = 6)) ∨
      (a.position.2 > bcols ∧ (d = 1 ∨ d = 4 ∨ d = 5)) ∨
      (a.position.2 < 0 ∧ (d = 3 ∨ d = 6 ∨ d = 7)) := by
  unfold avoid_boundary
  simp only []
  split_ifs with h1 h2 h3 h4 <;> simp_all [List.mem_append] <;> omega

/-- For a nonnegative extent, the exclusion list of `avoid_boundary`
never contains all four cardinal directions: the attempted direction
accounts for at most one of them, and at most one row condition and one
column condition can hold at once. -/
theorem avoid_boundary_not_all (a : StepAttempt) (brows bcols : Int)
    (hb : 0 ≤ brows) (hc : 0 ≤ bcols) :
    ∃ d, d < 4 ∧ d ∉ avoid_boundary a (brows, bcols) := by
  by_cases h0 : 0 ∈ avoid_boundary a (brows, bcols)
  case neg => exact ⟨0, by omega, h0⟩
  case pos =>
  by_cases h1 : 1 ∈ avoid_boundary a (brows, bcols)
  case neg => exact ⟨1, by omega, h1⟩
  case pos =>
  by_cases h2 : 2 ∈ avoid_boundary a (brows, bcols)
  case neg => exact ⟨2, by omega, h2⟩
  case pos =>
  by_cases h3 : 3 ∈ avoid_boundary a (brows, bcols)
  case neg => exact ⟨3, by omega, h3⟩
  case pos =>
  exfalso
  rw [avoid_boundary_mem_iff] at h0 h1 h2 h3
  norm_num at h0 h1 h2 h3
  rcases h0 with h0 | h0 <;> rcases h1 with h1 | h1 <;>
    rcases h2 with h2 | h2 <;> rcases h3 with h3 | h3 <;> omega

/-- C1: the bounds invariant fails on the code.  With `direction_count = 4`,
extent `(max_row, max_col) = (1, 1)`, `steps = 0`, `allow_revisit = true`
and the stream `rngCorner`, the walk starts at `(0, 0)`, first attempts S
(out of bounds), and the single boundary redraw — whose exclusion list
`[2, 2, 5, 6]` accounts only for the southern violation — draws W and
commits a visit increment at `(0, -1)`, a position with `col = -1 < 0`,
without any error: a grid write in the Running state targets a position
outside the extent. -/
theorem c1_bounds_violation :
    (random_walk rngCorner 4 (1, 1) zeroGrid 0 true).trace = [((0 : Int), (-1 : Int))] ∧
    out_of_bounds (0, -1) (1, 1) = true ∧
    (random_walk rngCorner 4 (1, 1) zeroGrid 0 true).errored = false ∧
    (random_walk rngCorner 4 (1, 1) zeroGrid 0 true).stuck = false := by
  refine ⟨?_, ?_, ?_, ?_⟩ <;> rfl

/-- C3: `find_new_path` can return an out-of-bounds attempt, and its
exclusion set never includes the boundary-forbidden directions.  With the
walker at the corner `(0, 0)` of a 2×2 grid (boundary `(1, 1)`), a first
attempt N towards the visited cell `(1, 0)`, and the stream `rngRetryS`,
the retry loop — which tests only `cell_visited`, never `out_of_bounds` —
returns the attempt S targeting `(-1, 0)`, which is outside the extent. -/
theorem c3_returns_out_of_bounds :
    find_new_path rngRetryS gridVisitedN (0, 0) ⟨(1, 0), 0⟩ 4 0 =
      .found ⟨(-1, 0), 2⟩ 1 ∧
    out_of_bounds (-1, 0) (1, 1) = true := by
  exact ⟨rfl, rfl⟩

/-- C4: the step-budget claim fails on the code by one step.  The loop is
`for step in range(steps + 1)`, so a walk with `steps = 0`,
`allow_revisit = true` and no stuck condition performs one movement
commit (total commits `steps + 2`, not the claimed `steps + 1`), instead
of performing only the initial seeding. -/
theorem c4_off_by_one :
    (random_walk (fun _ => 0) 4 (5, 5) zeroGrid 0 true).trace.length = 1 ∧
    (random_walk (fun _ => 0) 4 (5, 5) zeroGrid 0 true).stuck = false ∧
    (random_walk (fun _ => 0) 4 (5, 5) zeroGrid 0 true).errored = false := by
  refine ⟨?_, ?_, ?_⟩ <;> rfl

/-- C5, counterexample: configuration errors are neither detected at walk
start nor do they leave the grid unmodified.  With the invalid direction
count 5 and `steps = 0`, the walk seeds the start cell with 2 (the grid is
modified, whereas the claim requires it untouched) before the error
surfaces; and with the invalid direction count 5 but `steps = -1`, no
error surfaces at all — the loop body never runs, so the negative step
budget is never detected either. -/
theorem c5_counterexample :
    (random_walk (fun _ => 0) 5 (1, 1) zeroGrid 0 true).errored = true ∧
    (random_walk (fun _ => 0) 5 (1, 1) zeroGrid 0 true).grid
      ((random_walk (fun _ => 0) 5 (1, 1) zeroGrid 0 true).start) = 2 ∧
    zeroGrid ((random_walk (fun _ => 0) 5 (1, 1) zeroGrid 0 true).start) = 0 ∧
    (random_walk (fun _ => 0) 5 (1, 1) zeroGrid (-1) true).errored = false ∧
    (random_walk (fun _ => 0) 5 (1, 1) zeroGrid (-1) true).trace = [] := by
  refine ⟨?_, ?_, ?_, ?_, ?_⟩ <;> rfl

/-- With an unsupported direction count, `take_step` raises (`none`). -/
theorem take_step_invalid {nd : Nat} (hnd : ¬ (nd = 4 ∨ nd = 8))
    (rng : Nat → Nat) (k : Nat) (cur : Pos) (bl : List Nat) :
    take_step rng k cur nd bl = none := by
  unfold take_step
  rw [if_neg hnd]

/-- With an unsupported direction count, any loop iteration crashes at its
first `take_step` — but only if at least one iteration actually runs. -/
theorem walkLoop_invalid {nd : Nat} (hnd : ¬ (nd = 4 ∨ nd = 8))
    (rng : Nat → Nat) (b : Int × Int) (rv : Bool) (n : Nat) (g : Grid)
    (cur : Pos) (k : Nat) (tr : List Pos) :
    walkLoop rng nd b rv (n + 1) g cur k tr = .crashed g cur tr := by
  rw [walkLoop, take_step_invalid hnd]

/-- C5 amended: an invalid direction count is detected only at the first
step attempt inside the loop, not at walk start — the start cell has
already been seeded with 2 by then, so the grid is modified even though
the error is surfaced to the caller; and the detection happens only when
the step budget is nonnegative (at least one loop iteration runs).  A
negative step budget is never detected at all: the loop body never runs,
the walk seeds the start cell, commits nothing and returns as a normal
non-error result. -/
theorem c5_amended (rng : Nat → Nat) (num_directions : Nat)
    (brows bcols : Int) (g0 : Grid) (steps : Int) (revisit : Bool)
    (hnd : ¬ (num_directions = 4 ∨ num_directions = 8))
    (hb : 0 ≤ brows) (hc : 0 ≤ bcols) :
    (0 ≤ steps →
      (random_walk rng num_directions (brows, bcols) g0 steps revisit).errored
        = true ∧
      (random_walk rng num_directions (brows, bcols) g0 steps revisit).grid
        ((random_walk rng num_directions (brows, bcols) g0 steps revisit).start)
        = 2) ∧
    (steps < 0 →
      (random_walk rng num_directions (brows, bcols) g0 steps revisit).errored
        = false ∧
      (random_walk rng num_directions (brows, bcols) g0 steps revisit).trace
        = [] ∧
      (random_walk rng num_directions (brows, bcols) g0 steps revisit).grid
        ((random_walk rng num_directions (brows, bcols) g0 steps revisit).start)
        = 2) := by
  constructor
  · intro hsteps
    have hiter : (steps + 1).toNat = steps.toNat + 1 := by omega
    unfold random_walk
    rcases hsp : starting_position rng 0 (brows, bcols).1 (brows, bcols).2
      with _ | ⟨s, k0⟩
    · exfalso
      unfold starting_position at hsp
      rw [if_neg (by push_neg; exact ⟨hb, hc⟩)] at hsp
      exact absurd hsp (by simp)
    · simp only []
      rw [hiter, walkLoop_invalid hnd]
      exact ⟨rfl, gridSet_same g0 s 2⟩
  · intro hsteps
    have hiter : (steps + 1).toNat = 0 := by omega
    unfold random_walk
    rcases hsp : starting_position rng 0 (brows, bcols).1 (brows, bcols).2
      with _ | ⟨s, k0⟩
    · exfalso
      unfold starting_position at hsp
      rw [if_neg (by push_neg; exact ⟨hb, hc⟩)] at hsp
      exact absurd hsp (by simp)
    · simp only []
      rw [hiter]
      exact ⟨rfl, rfl, gridSet_same g0 s 2⟩

/-- Witness for C5 amended at direction count 5, extent `(1, 1)` and step
budget 0. -/
theorem c5_amended_witness :
    (¬ ((5 : Nat) = 4 ∨ (5 : Nat) = 8)) ∧ (0 : Int) ≤ 1 ∧ (0 : Int) ≤ 1 ∧
    (((0 : Int) ≤ 0 →
      (random_walk (fun _ => 0) 5 (1, 1) zeroGrid 0 true).errored = true ∧
      (random_walk (fun _ => 0) 5 (1, 1) zeroGrid 0 true).grid
        ((random_walk (fun _ => 0) 5 (1, 1) zeroGrid 0 true).start) = 2) ∧
     ((0 : Int) < 0 →
      (random_walk (fun _ => 0) 5 (1, 1) zeroGrid 0 true).errored = false ∧
      (random_walk (fun _ => 0) 5 (1, 1) zeroGrid 0 true).trace = [] ∧
      (random_walk (fun _ => 0) 5 (1, 1) zeroGrid 0 true).grid
        ((random_walk (fun _ => 0) 5 (1, 1) zeroGrid 0 true).start) = 2)) :=
  ⟨by decide, by decide, by decide,
    c5_amended (fun _ => 0) 5 1 1 zeroGrid 0 true (by decide)
      (by decide) (by decide)⟩

/-- C8: for every out-of-bounds attempt, the boundary policy returns
exactly the attempted direction plus `{0, 4, 7}` (N, NE, NW) when the
row of the attempt exceeds `max_row`, `{2, 5, 6}` (S, SE, SW) when the row is
negative, `{1, 4, 5}` (E, NE, SE) when the column exceeds `max_col`, and
`{3, 6, 7}` (W, SW, NW) when the column is negative, stated as a
membership characterisation of the returned list. -/
theorem c8_boundary_policy (a : StepAttempt) (brows bcols : Int) (d : Nat)
    (h : out_of_bounds a.position (brows, bcols) = true) :
    d ∈ avoid_boundary a (brows, bcols) ↔
      d = a.direction ∨
      (a.position.1 > brows ∧ (d = 0 ∨ d = 4 ∨ d = 7)) ∨
      (a.position.1 < 0 ∧ (d = 2 ∨ d = 5 ∨ d = 6)) ∨
      (a.position.2 > bcols ∧ (d = 1 ∨ d = 4 ∨ d = 5)) ∨
      (a.position.2 < 0 ∧ (d = 3 ∨ d = 6 ∨ d = 7)) :=
  avoid_boundary_mem_iff a brows bcols d

/-- Witness for C8 at the concrete attempt N from row `max_row`:
position `(2, 0)` with extent `(1, 1)` and the probed direction 4. -/
theorem c8_boundary_policy_witness :
    out_of_bounds ((2 : Int), (0 : Int)) (1, 1) = true ∧
    (4 ∈ avoid_boundary ⟨(2, 0), 0⟩ (1, 1) ↔
      4 = (StepAttempt.mk (2, 0) 0).direction ∨
      ((StepAttempt.mk (2, 0) 0).position.1 > 1 ∧ (4 = 0 ∨ 4 = 4 ∨ 4 = 7)) ∨
      ((StepAttempt.mk (2, 0) 0).position.1 < 0 ∧ (4 = 2 ∨ 4 = 5 ∨ 4 = 6)) ∨
      ((StepAttempt.mk (2, 0) 0).position.2 > 1 ∧ (4 = 1 ∨ 4 = 4 ∨ 4 = 5)) ∨
      ((StepAttempt.mk (2, 0) 0).position.2 < 0 ∧ (4 = 3 ∨ 4 = 6 ∨ 4 = 7))) :=
  ⟨by decide, c8_boundary_policy ⟨(2, 0), 0⟩ 1 1 4 (by decide)⟩

/-- C6: determinism.  All randomness is drawn from the explicit stream
`rng`, and the walk is a pure function of the stream, the configuration
and the extent, so two runs from the same all-zero grid with identical
inputs produce identical results — grids included. -/
theorem c6_determinism (rng : Nat → Nat) (num_directions : Nat)
    (boundary : Int × Int) (steps : Int) (revisit : Bool) :
    random_walk rng num_directions boundary zeroGrid steps revisit =
      random_walk rng num_directions boundary zeroGrid steps revisit := rfl

/-- The loop `findNewPathAux` returns `found` only for an unvisited target cell. -/
theorem findNewPathAux_found_unvisited {rng : Nat → Nat} {g : Grid} {cur : Pos}
    {nd : Nat} :
    ∀ fuel {np : StepAttempt} {tested : List Nat} {k : Nat} {a : StepAttempt}
      {k1 : Nat},
      findNewPathAux rng g cur nd fuel np tested k = .found a k1 →
      cell_visited g a.position = false := by
  intro fuel
  induction fuel with
  | zero =>
    intro np tested k a k1 h
    exact absurd h (by simp [findNewPathAux])
  | succ n ih =>
    intro np tested k a k1 h
    rw [findNewPathAux] at h
    split at h
    · split at h
      · exact absurd h (by simp)
      · split at h
        · exact absurd h (by simp)
        · exact ih h
    · rename_i hvis
      rw [StepOutcome.found.injEq] at h
      obtain ⟨h1, h2⟩ := h
      subst h1
      simpa using hvis

/-- The operation `find_new_path` returns `found` only for an unvisited target cell. -/
theorem find_new_path_found_unvisited {rng : Nat → Nat} {g : Grid} {cur : Pos}
    {np : StepAttempt} {nd k : Nat} {a : StepAttempt} {k1 : Nat}
    (h : find_new_path rng g cur np nd k = .found a k1) :
    cell_visited g a.position = false :=
  findNewPathAux_found_unvisited nd h

/-- The retry loop of `find_new_path` is self-bounding: with a duplicate-free,
in-range, nonempty tried list and fuel exceeding the number of directions
still untried, it ends in `stuck` or `found`, and a `found` result consumes
at most `num_directions - tested.length` further random draws (one per
freshly tried direction). -/
theorem findNewPathAux_bounded {rng : Nat → Nat} {g : Grid} {cur : Pos} {nd : Nat}
    (hnd : nd = 4 ∨ nd = 8) :
    ∀ fuel (np : StepAttempt) (tested : List Nat) (k : Nat),
      tested.Nodup → (∀ e ∈ tested, e < nd) → tested ≠ [] →
      nd - tested.length < fuel →
      findNewPathAux rng g cur nd fuel np tested k = .stuck ∨
      ∃ a k1, findNewPathAux rng g cur nd fuel np tested k = .found a k1 ∧
        k1 ≤ k + (nd - tested.length) := by
  intro fuel
  induction fuel with
  | zero =>
    intro np tested k hnodup hbound hne hfuel
    omega
  | succ n ih =>
    intro np tested k hnodup hbound hne hfuel
    rw [findNewPathAux]
    split
    case isFalse hvis =>
      exact Or.inr ⟨np, k, rfl, by omega⟩
    case isTrue hvis =>
      split
      case isTrue hstuck => exact Or.inl rfl
      case isFalse hstuck =>
      have hlenne : tested.length ≠ nd := by
        simpa [walker_is_stuck] using hstuck
      have hsub : tested.toFinset ⊆ Finset.range nd := by
        intro x hx
        exact Finset.mem_range.mpr (hbound x (List.mem_toFinset.mp hx))
      have hcard := Finset.card_le_card hsub
      rw [List.toFinset_card_of_nodup hnodup, Finset.card_range] at hcard
      have hlen : tested.length < nd := by omega
      have hex : ∃ e, e < nd ∧ e ∉ tested := by
        by_contra hnotex
        push_neg at hnotex
        have hsub2 : Finset.range nd ⊆ tested.toFinset := by
          intro x hx
          exact List.mem_toFinset.mpr (hnotex x (Finset.mem_range.mp hx))
        have := Finset.card_le_card hsub2
        rw [List.toFinset_card_of_nodup hnodup, Finset.card_range] at this
        omega
      obtain ⟨a2, k2, hts⟩ := take_step_some rng k cur nd tested hnd hex
      rw [hts]
      obtain ⟨hdir, hfresh, _, hk2⟩ := take_step_spec hts
      have hrec := ih a2 (tested ++ [a2.direction]) k2
        (by simp [List.nodup_append, hnodup, hfresh])
        (by
          intro e he
          rcases List.mem_append.mp he with he | he
          · exact hbound e he
          · simp at he; omega)
        (by simp)
        (by simp; omega)
      rcases hrec with hrec | ⟨a3, k3, heq, hle⟩
      · exact Or.inl hrec
      · refine Or.inr ⟨a3, k3, heq, ?_⟩
        simp at hle
        omega

/-- C7: the revisit-resolution retry loop is self-bounding.  Starting
from a first attempt whose direction is in range, `find_new_path` (with
its recursion bound of `num_directions`) always terminates in `stuck` or
`found` — never in fuel exhaustion or a crash — and a `found` result
consumes at most `num_directions - 1` retry draws beyond the first
attempt, i.e. at most `num_directions` attempts in total; `stuck` is
declared exactly when the tried set, which grows by one distinct
direction per attempt, has length `num_directions`. -/
theorem c7_retry_self_bounding (rng : Nat → Nat) (g : Grid) (cur : Pos)
    (np : StepAttempt) (num_directions k : Nat)
    (hnd : num_directions = 4 ∨ num_directions = 8)
    (hd : np.direction < num_directions) :
    find_new_path rng g cur np num_directions k = .stuck ∨
    ∃ a k1, find_new_path rng g cur np num_directions k = .found a k1 ∧
      k1 ≤ k + (num_directions - 1) := by
  have hpos : 0 < num_directions := by rcases hnd with h | h <;> omega
  have h := @findNewPathAux_bounded rng g cur num_directions hnd
    num_directions np [np.direction] k
    (List.nodup_singleton _) (by simpa using hd) (by simp)
    (by simp only [List.length_singleton]; omega)
  simpa [find_new_path, List.length_singleton] using h

/-- Witness for C7 on the all-zero grid: the first attempt is unvisited,
so the loop returns it at once. -/
theorem c7_retry_self_bounding_witness :
    ((4 : Nat) = 4 ∨ (4 : Nat) = 8) ∧
    (StepAttempt.mk (1, 0) 0).direction < 4 ∧
    (find_new_path (fun _ => 0) zeroGrid (0, 0) ⟨(1, 0), 0⟩ 4 0 = .stuck ∨
     ∃ a k1, find_new_path (fun _ => 0) zeroGrid (0, 0) ⟨(1, 0), 0⟩ 4 0 =
       .found a k1 ∧ k1 ≤ 0 + (4 - 1)) :=
  ⟨Or.inl rfl, by decide,
    c7_retry_self_bounding (fun _ => 0) zeroGrid (0, 0) ⟨(1, 0), 0⟩ 4 0
      (Or.inl rfl) (by decide)⟩

/-- Loop invariant for `revisit = false`: if every cell is nonnegative,
the start cell and every already-committed cell are strictly positive,
and the trace so far has no duplicates and excludes the start, then the
final trace has no duplicates and excludes the start.  Each commit goes
through `find_new_path`, which only returns unvisited (value `≤ 0`)
cells, and each commit makes its cell strictly positive. -/
theorem walkLoop_no_revisit (rng : Nat → Nat) (nd : Nat) (b : Int × Int)
    (start : Pos) :
    ∀ iters (g : Grid) (cur : Pos) (k : Nat) (tr : List Pos),
      (∀ p, 0 ≤ g p) → 0 < g start → (∀ p ∈ tr, 0 < g p) →
      tr.Nodup → start ∉ tr →
      (walkLoop rng nd b false iters g cur k tr).trace.Nodup ∧
      start ∉ (walkLoop rng nd b false iters g cur k tr).trace := by
  intro iters
  induction iters with
  | zero =>
    intro g cur k tr hg hstart htr hnodup hs
    exact ⟨hnodup, hs⟩
  | succ n ih =>
    intro g cur k tr hg hstart htr hnodup hs
    rw [walkLoop]
    rcases hts : take_step rng k cur nd [] with _ | ⟨np0, k1⟩
    · simp only [hts, LoopRes.trace]
      exact ⟨hnodup, hs⟩
    · simp only [hts]
      rcases hab : (if out_of_bounds np0.position b then
          take_step rng k1 cur nd (avoid_boundary np0 b)
        else some (np0, k1)) with _ | ⟨np1, k2⟩
      · simp only [hab, LoopRes.trace]
        exact ⟨hnodup, hs⟩
      · simp only [hab, Bool.false_eq_true, if_false]
        rcases hfr : find_new_path rng g cur np1 nd k2 with ⟨a, k3⟩ | _ | _ | _
        · simp only [hfr]
          have hunvis := find_new_path_found_unvisited hfr
          simp only [cell_visited, gt_iff_lt, decide_eq_false_iff_not, not_lt] at hunvis
          have hnotin : a.position ∉ tr := fun hmem => by
            have := htr a.position hmem
            omega
          have hnes : start ≠ a.position := fun he => by
            rw [he] at hstart
            omega
          apply ih
          · intro p
            unfold gridSet
            split
            · have := hg a.position
              omega
            · exact hg p
          · have : gridSet g a.position (g a.position + 1) start = g start := by
              unfold gridSet
              rw [if_neg hnes]
            omega
          · intro p hp
            rcases List.mem_append.mp hp with hp | hp
            · have hne : p ≠ a.position := fun he => by
                have := htr p hp
                rw [he] at this
                omega
              have : gridSet g a.position (g a.position + 1) p = g p := by
                unfold gridSet
                rw [if_neg hne]
              have := htr p hp
              omega
            · simp at hp
              subst hp
              have := hg a.position
              rw [gridSet_same]
              omega
          · simp [List.nodup_append, hnodup, hnotin]
          · simp only [List.mem_append, List.mem_singleton]
            push_neg
            exact ⟨hs, hnes⟩
        · simp only [hfr, LoopRes.trace]
          exact ⟨hnodup, hs⟩
        · simp only [hfr, LoopRes.trace]
          exact ⟨hnodup, hs⟩
        · simp only [hfr, LoopRes.trace]
          exact ⟨hnodup, hs⟩

/-- C2: the no-revisit invariant holds.  For every walk with
`allow_revisit = false` over any initially nonnegative grid (the raster
adapter hands over an all-zero grid), no position is committed (visit
counter incremented) more than once — the commit trace has no duplicates
— and the seeded start cell is never incremented again.  The
stuck-sentinel overwrite is a raw write, not a commit, and is therefore
not in the trace. -/
theorem c2_no_revisit (rng : Nat → Nat) (num_directions : Nat)
    (boundary : Int × Int) (g0 : Grid) (steps : Int)
    (h0 : ∀ p, 0 ≤ g0 p) :
    (random_walk rng num_directions boundary g0 steps false).trace.Nodup ∧
    (random_walk rng num_directions boundary g0 steps false).start ∉
      (random_walk rng num_directions boundary g0 steps false).trace := by
  unfold random_walk
  rcases hsp : starting_position rng 0 boundary.1 boundary.2 with _ | ⟨s, k0⟩
  · simp
  · simp only [hsp]
    have h1 : ∀ p, 0 ≤ gridSet g0 s 2 p := by
      intro p
      unfold gridSet
      split
      · omega
      · exact h0 p
    have h2 : 0 < gridSet g0 s 2 s := by
      rw [gridSet_same]
      omega
    have h3 := walkLoop_no_revisit rng num_directions boundary s
      ((steps + 1).toNat) (gridSet g0 s 2) s k0 [] h1 h2 (by simp)
      List.nodup_nil (by simp)
    rcases hwl : walkLoop rng num_directions boundary false ((steps + 1).toNat)
        (gridSet g0 s 2) s k0 [] with ⟨g, c, k, tr⟩ | ⟨g, c, tr⟩ | ⟨g, c, tr⟩ <;>
      rw [hwl] at h3 <;>
        simp only [LoopRes.trace] at h3 <;>
          exact h3

/-- Witness for C2: a concrete three-step no-revisit walk on a 3×3 grid. -/
theorem c2_no_revisit_witness :
    (∀ p : Pos, 0 ≤ zeroGrid p) ∧
    ((random_walk (fun _ => 0) 4 (2, 2) zeroGrid 2 false).trace.Nodup ∧
     (random_walk (fun _ => 0) 4 (2, 2) zeroGrid 2 false).start ∉
       (random_walk (fun _ => 0) 4 (2, 2) zeroGrid 2 false).trace) :=
  ⟨fun _ => le_refl 0,
    c2_no_revisit (fun _ => 0) 4 (2, 2) zeroGrid 2 (fun _ => le_refl 0)⟩

/-- A loop that ends in `gotStuck` stopped strictly before exhausting its
iterations: its final trace is shorter than the starting trace plus the
iteration budget (the stuck iteration commits nothing). -/
theorem walkLoop_gotStuck_trace (rng : Nat → Nat) (nd : Nat) (b : Int × Int)
    (rv : Bool) :
    ∀ iters (g : Grid) (cur : Pos) (k : Nat) (tr : List Pos)
      (g2 : Grid) (c2 : Pos) (t2 : List Pos),
      walkLoop rng nd b rv iters g cur k tr = .gotStuck g2 c2 t2 →
      t2.length < tr.length + iters := by
  intro iters
  induction iters with
  | zero =>
    intro g cur k tr g2 c2 t2 h
    exact absurd h (by simp [walkLoop])
  | succ n ih =>
    intro g cur k tr g2 c2 t2 h
    rw [walkLoop] at h
    rcases hts : take_step rng k cur nd [] with _ | ⟨np0, k1⟩
    · rw [hts] at h
      exact absurd h (by simp)
    · rw [hts] at h
      simp only [] at h
      rcases hab : (if out_of_bounds np0.position b then
          take_step rng k1 cur nd (avoid_boundary np0 b)
        else some (np0, k1)) with _ | ⟨np1, k2⟩
      · rw [hab] at h
        exact absurd h (by simp)
      · rw [hab] at h
        simp only [] at h
        cases rv with
        | true =>
          simp only [if_true] at h
          have := ih _ _ _ _ _ _ _ h
          simp at this
          omega
        | false =>
          simp only [Bool.false_eq_true, if_false] at h
          rcases hfr : find_new_path rng g cur np1 nd k2 with ⟨a, k3⟩ | _ | _ | _ <;>
            rw [hfr] at h
          · have := ih _ _ _ _ _ _ _ h
            simp at this
            omega
          · rw [LoopRes.gotStuck.injEq] at h
            obtain ⟨h1, h2, h3⟩ := h
            subst h3
            omega
          · exact absurd h (by simp)
          · exact absurd h (by simp)

/-- C9: whenever the walker gets stuck (the `GetOutOfLoop` unwind fires),
the walk writes the sentinel value 3 over the current (pre-stuck)
position, whatever count was there, commits nothing further (the commit
trace is strictly shorter than the iteration budget), and terminates as a
normal non-error result returning the mutated grid. -/
theorem c9_stuck_sentinel (rng : Nat → Nat) (num_directions : Nat)
    (boundary : Int × Int) (g0 : Grid) (steps : Int) (revisit : Bool)
    (h : (random_walk rng num_directions boundary g0 steps revisit).stuck = true) :
    (random_walk rng num_directions boundary g0 steps revisit).errored = false ∧
    (random_walk rng num_directions boundary g0 steps revisit).grid
      ((random_walk rng num_directions boundary g0 steps revisit).final) = 3 ∧
    (random_walk rng num_directions boundary g0 steps revisit).trace.length <
      (steps + 1).toNat := by
  unfold random_walk at h ⊢
  rcases hsp : starting_position rng 0 boundary.1 boundary.2 with _ | ⟨s, k0⟩
  · rw [hsp] at h
    exact absurd h (by simp)
  · rw [hsp] at h
    simp only [] at h ⊢
    rcases hwl : walkLoop rng num_directions boundary revisit ((steps + 1).toNat)
        (gridSet g0 s 2) s k0 [] with ⟨g, c, k, tr⟩ | ⟨g, c, tr⟩ | ⟨g, c, tr⟩ <;>
      rw [hwl] at h
    · exact absurd h (by simp)
    · refine ⟨rfl, gridSet_same g c 3, ?_⟩
      have hlen := walkLoop_gotStuck_trace rng num_directions boundary revisit
        ((steps + 1).toNat) (gridSet g0 s 2) s k0 [] g c tr hwl
      show tr.length < (steps + 1).toNat
      simpa using hlen
    · exact absurd h (by simp)

/-- Witness for C9: a no-revisit walk from the centre of a 3×3 grid whose
four cardinal neighbours are pre-marked visited gets stuck immediately. -/
theorem c9_stuck_sentinel_witness :
    (random_walk rngCentre 4 (2, 2) gridSaturated 0 false).stuck = true ∧
    ((random_walk rngCentre 4 (2, 2) gridSaturated 0 false).errored = false ∧
     (random_walk rngCentre 4 (2, 2) gridSaturated 0 false).grid
       ((random_walk rngCentre 4 (2, 2) gridSaturated 0 false).final) = 3 ∧
     (random_walk rngCentre 4 (2, 2) gridSaturated 0 false).trace.length <
       ((0 : Int) + 1).toNat) :=
  ⟨by rfl, c9_stuck_sentinel rngCentre 4 (2, 2) gridSaturated 0 false (by rfl)⟩

/-- With `revisit = true`, a valid direction count and a nonnegative
extent, every iteration of the walk loop succeeds: the unconstrained draw
always has candidates, the boundary redraw always has candidates (the
exclusion list never covers all directions), and `find_new_path` is never
consulted — so the loop always runs to completion. -/
theorem walkLoop_revisit_completed (rng : Nat → Nat) (nd : Nat)
    (brows bcols : Int) (hnd : nd = 4 ∨ nd = 8)
    (hb : 0 ≤ brows) (hc : 0 ≤ bcols) :
    ∀ iters (g : Grid) (cur : Pos) (k : Nat) (tr : List Pos),
      ∃ g2 c2 k2 t2,
        walkLoop rng nd (brows, bcols) true iters g cur k tr =
          .completed g2 c2 k2 t2 := by
  intro iters
  induction iters with
  | zero =>
    intro g cur k tr
    exact ⟨g, cur, k, tr, rfl⟩
  | succ n ih =>
    intro g cur k tr
    have hnd0 : 0 < nd := by rcases hnd with h | h <;> omega
    obtain ⟨np0, k1, hts⟩ := take_step_some rng k cur nd [] hnd
      ⟨0, hnd0, by simp⟩
    rw [walkLoop, hts]
    simp only []
    by_cases hoob : out_of_bounds np0.position (brows, bcols) = true
    · obtain ⟨d, hd4, hdnot⟩ := avoid_boundary_not_all np0 brows bcols hb hc
      obtain ⟨np1, k2, hts2⟩ := take_step_some rng k1 cur nd
        (avoid_boundary np0 (brows, bcols)) hnd ⟨d, by omega, hdnot⟩
      rw [hoob]
      simp only [if_true, hts2]
      exact ih _ _ _ _
    · rw [Bool.not_eq_true] at hoob
      rw [hoob]
      simp only [Bool.false_eq_true, if_false]
      exact ih _ _ _ _

/-- C10: with `allow_revisit = true`, a direction count in `{4, 8}` and a
nonnegative extent, the walk can never get stuck and never crashes (in
particular the candidate set of the boundary redraw is never empty), and the
exclusion list produced by the boundary policy never covers all of
`[0, direction_count)`: some cardinal direction below 4 always remains
available. -/
theorem c10_revisit_never_stuck (rng : Nat → Nat) (num_directions : Nat)
    (brows bcols : Int) (g0 : Grid) (steps : Int)
    (hnd : num_directions = 4 ∨ num_directions = 8)
    (hb : 0 ≤ brows) (hc : 0 ≤ bcols) :
    (random_walk rng num_directions (brows, bcols) g0 steps true).stuck = false ∧
    (random_walk rng num_directions (brows, bcols) g0 steps true).errored = false ∧
    (∀ a : StepAttempt, ∃ d, d < num_directions ∧
      d ∉ avoid_boundary a (brows, bcols)) := by
  refine ⟨?_, ?_, ?_⟩
  · unfold random_walk
    rcases hsp : starting_position rng 0 (brows, bcols).1 (brows, bcols).2
      with _ | ⟨s, k0⟩
    · rfl
    · simp only []
      obtain ⟨g2, c2, k2, t2, hwl⟩ := walkLoop_revisit_completed rng
        num_directions brows bcols hnd hb hc ((steps + 1).toNat)
        (gridSet g0 s 2) s k0 []
      rw [hwl]
  · unfold random_walk
    rcases hsp : starting_position rng 0 (brows, bcols).1 (brows, bcols).2
      with _ | ⟨s, k0⟩
    · exfalso
      unfold starting_position at hsp
      rw [if_neg (by push_neg; exact ⟨hb, hc⟩)] at hsp
      exact absurd hsp (by simp)
    · simp only []
      obtain ⟨g2, c2, k2, t2, hwl⟩ := walkLoop_revisit_completed rng
        num_directions brows bcols hnd hb hc ((steps + 1).toNat)
        (gridSet g0 s 2) s k0 []
      rw [hwl]
  · intro a
    obtain ⟨d, hd4, hdnot⟩ := avoid_boundary_not_all a brows bcols hb hc
    exact ⟨d, by rcases hnd with h | h <;> omega, hdnot⟩

/-- Witness for C10 on a concrete 2×2 extent with revisiting allowed. -/
theorem c10_revisit_never_stuck_witness :
    ((4 : Nat) = 4 ∨ (4 : Nat) = 8) ∧ (0 : Int) ≤ 1 ∧ (0 : Int) ≤ 1 ∧
    ((random_walk (fun _ => 0) 4 (1, 1) zeroGrid 3 true).stuck = false ∧
     (random_walk (fun _ => 0) 4 (1, 1) zeroGrid 3 true).errored = false ∧
     (∀ a : StepAttempt, ∃ d, d < 4 ∧ d ∉ avoid_boundary a (1, 1))) :=
  ⟨Or.inl rfl, by decide, by decide,
    c10_revisit_never_stuck (fun _ => 0) 4 1 1 zeroGrid 3
      (Or.inl rfl) (by decide) (by decide)⟩

end RandomWalk
